import Mathlib

/-!
Shallow embedding of the rule-based transit route system in
`src/Ruta Transportes/main.py`.

Conventions of the embedding:
- Python `dict` values (`estaciones`, `conexiones`, schedules, the search
  bookkeeping maps) are association lists `List (String × α)` in insertion
  order; `dict[k]` lookups that may raise `KeyError` are modelled with
  `List.lookup` and an explicit error value.
- Python `float` arithmetic is modelled exactly over `ℚ`.  The only
  operation that leaves `ℚ` is the heuristic's `** 0.5`; the search is
  therefore parametrized by an arbitrary square-root model
  `sqrtFn : ℚ → ℚ`, and every theorem below holds for every such model.
- Raised exceptions (`ValueError` for unknown endpoints, `KeyError` for
  missing dict keys) become an `Except` error variant; `return None`
  ("no route") stays the ordinary value `Except.ok none`.
- The two `while` loops (the A* loop and the path-reconstruction walk) are
  modelled with explicit fuel; running out of fuel is the distinguished
  error `RouteError.fuelExhausted`, which the termination theorems show is
  unreachable for the fuel the entry points supply.
-/

namespace RutaTransportes

/-- `Estacion` record (main.py lines 12-18). -/
structure Estacion where
  id : String
  nombre : String
  coordenadas : ℚ × ℚ
  lineas : List String
  servicios : List String
  deriving DecidableEq, Repr

/-- One day's operating window inside a connection's `horario` dict
(main.py lines 120-122 read the `"inicio"` and `"fin"` entries as
`[hour, minute]` pairs). -/
structure HorarioDia where
  inicio : Nat × Nat
  fin : Nat × Nat
  deriving DecidableEq, Repr

/-- `Conexion` record (main.py lines 20-28).  `horario` maps a lowercase
weekday name to that day's window. -/
structure Conexion where
  origen : String
  destino : String
  linea : String
  tiempo_promedio : ℤ
  distancia : ℚ
  activa : Bool := true
  horario : Option (List (String × HorarioDia)) := none
  deriving DecidableEq, Repr

/-- `Ruta` record (main.py lines 36-43). -/
structure Ruta where
  estaciones : List String
  conexiones : List String
  tiempo_total : ℤ
  distancia_total : ℚ
  transbordos : ℤ
  costo : ℤ
  deriving DecidableEq, Repr

/-- `Preferencia` record (main.py lines 45-48). -/
structure Preferencia where
  nombre : String
  peso : ℚ
  deriving DecidableEq, Repr

/-- A rule entry: a Python dict with string key `tipo` and the
type-specific fields; `regla.get(k)` returns `none` when the key is
absent (main.py lines 129-161 only ever read these five keys). -/
structure Regla where
  tipo : Option String := none
  estacion_id : Option String := none
  linea : Option String := none
  origen : Option String := none
  destino : Option String := none
  factor : Option ℚ := none
  deriving DecidableEq, Repr

/-- The query instant: `dia_semana` is the output of
`hora_actual.strftime("%A")` and `hora` the clock time `(hour, minute)`
(sub-minute components play no role in the embedding). -/
structure FechaHora where
  dia_semana : String
  hora : Nat × Nat
  deriving DecidableEq, Repr

/-- The knowledge base (main.py lines 50-62): authoritative station and
connection collections plus the rule list. -/
structure BaseConocimiento where
  estaciones : List (String × Estacion)
  conexiones : List (String × Conexion)
  reglas_logicas : List Regla
  deriving DecidableEq, Repr

/-- The metric 4-vector `(tiempo, distancia, transbordos, costo)` kept per
station in `metricas` (main.py line 213). -/
structure Metricas where
  tiempo : ℤ
  distancia : ℚ
  transbordos : ℤ
  costo : ℤ
  deriving DecidableEq, Repr

/-- Errors surfaced by the query path: `invalidInput` models the
`ValueError` raised for unknown endpoints (main.py lines 196-199),
`keyError` a Python `KeyError` on a missing dict key, and
`fuelExhausted` is the embedding's out-of-fuel marker for the two
source `while` loops. -/
inductive RouteError where
  | invalidInput : String → RouteError
  | keyError : String → RouteError
  | fuelExhausted : RouteError
  deriving DecidableEq, Repr

/-- Python `int(q)` on a float: truncation toward zero. -/
def pyInt (q : ℚ) : ℤ :=
  if q < 0 then ⌈q⌉ else ⌊q⌋

/-- Python `datetime.time` strict comparison restricted to
`(hour, minute)` pairs: lexicographic. -/
def timeLt (a b : Nat × Nat) : Bool :=
  decide (a.1 < b.1) || (decide (a.1 = b.1) && decide (a.2 < b.2))

/-- Python dict assignment `d[k] = v`: update the existing key in place,
else append a fresh entry (insertion order preserved). -/
def dictSet {α : Type} (l : List (String × α)) (k : String) (v : α) :
    List (String × α) :=
  if (l.lookup k).isSome then
    l.map (fun p => if p.1 = k then (k, v) else p)
  else
    l ++ [(k, v)]

/-- Schedule filtering for one connection (main.py lines 112-126): an
active connection with a schedule entry for the query day is deactivated
when the clock time falls strictly outside `[inicio, fin]`. -/
def aplicarHorarioConexion (hora_actual : FechaHora) (c : Conexion) : Conexion :=
  if c.activa = false then c
  else
    match c.horario with
    | none => c
    | some horario =>
      match horario.lookup hora_actual.dia_semana.toLower with
      | none => c
      | some horario_dia =>
        if timeLt hora_actual.hora horario_dia.inicio ||
            timeLt horario_dia.fin hora_actual.hora then
          { c with activa := false }
        else c

/-- The schedule-filtering pass over the whole connection dict. -/
def aplicarHorario (hora_actual : FechaHora)
    (cs : List (String × Conexion)) : List (String × Conexion) :=
  cs.map (fun p => (p.1, aplicarHorarioConexion hora_actual p.2))

/-- `cierre_estacion` effect on one connection (main.py lines 136-138). -/
def cierreEstacionConexion (estacion_id : String) (c : Conexion) : Conexion :=
  if c.origen = estacion_id ∨ c.destino = estacion_id then
    { c with activa := false }
  else c

/-- `cierre_linea` effect on one connection (main.py lines 143-145); the
rule's `linea` may be missing (`none`), in which case nothing matches. -/
def cierreLineaConexion (linea : Option String) (c : Conexion) : Conexion :=
  if some c.linea = linea then { c with activa := false } else c

/-- `mantenimiento_tramo` effect on one connection (main.py lines
150-153): the segment matches in either direction. -/
def mantenimientoConexion (tramo_origen tramo_destino : Option String)
    (c : Conexion) : Conexion :=
  if (some c.origen = tramo_origen ∧ some c.destino = tramo_destino) ∨
      (some c.origen = tramo_destino ∧ some c.destino = tramo_origen) then
    { c with activa := false }
  else c

/-- `congestion` effect on one connection (main.py lines 158-161):
`tiempo_promedio = int(tiempo_promedio * factor)`. -/
def congestionConexion (linea : Option String) (factor : ℚ) (c : Conexion) :
    Conexion :=
  if some c.linea = linea then
    { c with tiempo_promedio := pyInt ((c.tiempo_promedio : ℚ) * factor) }
  else c

/-- One rule applied to the connection dict (main.py lines 129-161).
A rule with an unknown `tipo`, or a `cierre_estacion` whose station id is
missing or not a registered station, is a no-op. -/
def aplicarRegla (estaciones : List (String × Estacion)) (regla : Regla)
    (cs : List (String × Conexion)) : List (String × Conexion) :=
  if regla.tipo = some "cierre_estacion" then
    match regla.estacion_id with
    | some estacion_id =>
      if (estaciones.lookup estacion_id).isSome then
        cs.map (fun p => (p.1, cierreEstacionConexion estacion_id p.2))
      else cs
    | none => cs
  else if regla.tipo = some "cierre_linea" then
    cs.map (fun p => (p.1, cierreLineaConexion regla.linea p.2))
  else if regla.tipo = some "mantenimiento_tramo" then
    cs.map (fun p => (p.1, mantenimientoConexion regla.origen regla.destino p.2))
  else if regla.tipo = some "congestion" then
    cs.map (fun p => (p.1, congestionConexion regla.linea (regla.factor.getD (3/2)) p.2))
  else cs

/-- `BaseConocimiento.aplicar_reglas` (main.py lines 104-161): the
schedule pass followed by the rules in list order.  The origin,
destination and preference parameters are accepted and ignored, exactly
as in the source.  The source mutates `self.conexiones` in place; the
embedding returns the updated knowledge base. -/
def aplicar_reglas (base : BaseConocimiento) (_origen _destino : String)
    (hora_actual : FechaHora) (_preferencias : Option (List Preferencia)) :
    BaseConocimiento :=
  let cs1 := aplicarHorario hora_actual base.conexiones
  let cs2 := base.reglas_logicas.foldl
    (fun cs regla => aplicarRegla base.estaciones regla cs) cs1
  { base with conexiones := cs2 }

/-- The default preference set (main.py lines 57-62). -/
def preferencias_default : List Preferencia :=
  [⟨"tiempo", 1/2⟩, ⟨"transbordos", 3/10⟩, ⟨"distancia", 1/10⟩, ⟨"costo", 1/10⟩]

/-- The weighted sum both `_es_mejor_ruta` and `_calcular_prioridad`
accumulate over the preference list (main.py lines 315-327 and 339-347):
unrecognized preference names contribute nothing, and `transbordos` is
amplified by the fixed factor 10. -/
def valorMetricas (preferencias : List Preferencia) (m : Metricas) : ℚ :=
  preferencias.foldl
    (fun valor pref =>
      if pref.nombre = "tiempo" then valor + pref.peso * (m.tiempo : ℚ)
      else if pref.nombre = "distancia" then valor + pref.peso * m.distancia
      else if pref.nombre = "transbordos" then
        valor + pref.peso * (m.transbordos : ℚ) * 10
      else if pref.nombre = "costo" then valor + pref.peso * (m.costo : ℚ)
      else valor)
    0

/-- `SistemaRutas._es_mejor_ruta` (main.py lines 305-330): strictly lower
weighted value wins. -/
def es_mejor_ruta (metricas_nueva metricas_actual : Metricas)
    (preferencias : List Preferencia) : Bool :=
  decide (valorMetricas preferencias metricas_nueva <
    valorMetricas preferencias metricas_actual)

/-- `SistemaRutas._calcular_prioridad` (main.py lines 332-352): weighted
value plus twice the geographic heuristic. -/
def calcular_prioridad (m : Metricas) (heuristica : ℚ)
    (preferencias : List Preferencia) : ℚ :=
  valorMetricas preferencias m + heuristica * 2

/-- `SistemaRutas._calcular_distancia` (main.py lines 354-358):
`((Δlat)² + (Δlon)²) ** 0.5`, with `** 0.5` supplied by the abstract
square-root model `sqrtFn`. -/
def calcular_distancia (sqrtFn : ℚ → ℚ) (coord1 coord2 : ℚ × ℚ) : ℚ :=
  sqrtFn ((coord2.1 - coord1.1) ^ 2 + (coord2.2 - coord1.2) ^ 2)

/-- A priority-queue entry `(prioridad, estacion, linea)` (main.py lines
218-219); the initial entry carries `linea = none` for Python's `None`. -/
structure Entry where
  prioridad : ℚ
  estacion : String
  linea : Option String
  deriving DecidableEq, Repr

/-- Order on the optional third tuple component.  In the source the only
entry whose `linea` is `None` is the initial one, which is popped while
it is alone in the heap, so Python never actually compares `None` with a
string (doing so would raise `TypeError`); the embedding puts the `none`
sentinel first. -/
def lineaLe : Option String → Option String → Bool
  | none, _ => true
  | some _, none => false
  | some a, some b => decide (a ≤ b)

/-- Python tuple comparison on heap entries:
`(prioridad, estacion, linea)` lexicographic. -/
def entryLe (a b : Entry) : Bool :=
  decide (a.prioridad < b.prioridad) ||
    (decide (a.prioridad = b.prioridad) &&
      (decide (a.estacion < b.estacion) ||
        (decide (a.estacion = b.estacion) && lineaLe a.linea b.linea)))

/-- `heapq.heappush`: the queue is modelled as a list sorted under
`entryLe`; pushing inserts at the first admissible position. -/
def heapPush (e : Entry) : List Entry → List Entry
  | [] => [e]
  | x :: xs => if entryLe e x then e :: x :: xs else x :: heapPush e xs

/-- `SistemaRutas.describir_ruta` is out of the claims' scope; the search
bookkeeping state (main.py lines 206-215): the priority queue, the
settled set, the predecessor map `padres` (station ↦ (previous station,
connection id)), the write-only `lineas_actuales` map, and the metric
map `metricas`. -/
structure AStarState where
  cola : List Entry
  visitados : List String
  padres : List (String × (String × String))
  lineas_actuales : List (String × String)
  metricas : List (String × Metricas)
  deriving DecidableEq, Repr

/-- The metric additions of one traversed edge (main.py lines 249-271):
`tiempo += tiempo_promedio` (+5 on a line change), `distancia +=
distancia`, `transbordos += 1` exactly on a line change, `costo += 10`. -/
def cambioLinea (linea_actual : Option String) (c : Conexion) : Bool :=
  match linea_actual with
  | none => false
  | some la => decide (la ≠ c.linea)

/-- Accumulated metrics after traversing connection `c` from a node whose
inbound line is `linea_actual` and whose metrics are `m`. -/
def metricasArista (linea_actual : Option String) (c : Conexion)
    (m : Metricas) : Metricas :=
  { tiempo := m.tiempo + (c.tiempo_promedio + (if cambioLinea linea_actual c then 5 else 0)),
    distancia := m.distancia + c.distancia,
    transbordos := m.transbordos + (if cambioLinea linea_actual c then 1 else 0),
    costo := m.costo + 10 }

/-- The neighbour-expansion `for` loop of one A* iteration (main.py lines
237-300): every connection is scanned; inactive ones, ones not leaving
the current station, and ones into settled stations are skipped; an
accepted relaxation records metrics, predecessor and line, then pushes
the neighbour with its priority.  The `metricas.get(..., inf)` default
in the source is dead (the lookup only runs when the key is present) and
is modelled by the direct lookup.  In the source the three dict writes
precede the station lookup that may raise `KeyError`; since that error
aborts the whole query and the search state is local to it, performing
the lookup first is observationally identical. -/
def explorar (sqrtFn : ℚ → ℚ) (estaciones : List (String × Estacion))
    (preferencias : List Preferencia) (destino_coords : ℚ × ℚ)
    (estacion_actual : String) (linea_actual : Option String) :
    List (String × Conexion) → AStarState → Except RouteError AStarState
  | [], s => .ok s
  | (conexion_id, c) :: rest, s =>
    if c.activa = false then
      explorar sqrtFn estaciones preferencias destino_coords estacion_actual
        linea_actual rest s
    else if c.origen ≠ estacion_actual then
      explorar sqrtFn estaciones preferencias destino_coords estacion_actual
        linea_actual rest s
    else if c.destino ∈ s.visitados then
      explorar sqrtFn estaciones preferencias destino_coords estacion_actual
        linea_actual rest s
    else
      match s.metricas.lookup estacion_actual with
      | none => .error (.keyError estacion_actual)
      | some m =>
        if (match s.metricas.lookup c.destino with
            | none => true
            | some actuales =>
              es_mejor_ruta (metricasArista linea_actual c m) actuales preferencias) = true then
          match estaciones.lookup c.destino with
          | none => .error (.keyError c.destino)
          | some estacion_siguiente =>
            explorar sqrtFn estaciones preferencias destino_coords
              estacion_actual linea_actual rest
              { s with
                cola := heapPush
                    ⟨calcular_prioridad (metricasArista linea_actual c m)
                        (calcular_distancia sqrtFn
                          estacion_siguiente.coordenadas destino_coords)
                        preferencias,
                      c.destino, some c.linea⟩ s.cola,
                padres := dictSet s.padres c.destino (estacion_actual, conexion_id),
                lineas_actuales := dictSet s.lineas_actuales c.destino c.linea,
                metricas := dictSet s.metricas c.destino
                  (metricasArista linea_actual c m) }
        else
          explorar sqrtFn estaciones preferencias destino_coords estacion_actual
            linea_actual rest s

/-- The backward walk of `_reconstruir_ruta` (main.py lines 365-372):
follow `padres` from the destination until the origin, accumulating
station and connection ids in walk order. -/
def reconstruirLoop (padres : List (String × (String × String)))
    (origen_id : String) :
    Nat → String → List String → List String →
    Except RouteError (List String × List String)
  | 0, _, _, _ => .error .fuelExhausted
  | fuel + 1, estacion_actual, ests, cons =>
    if estacion_actual = origen_id then .ok (ests, cons)
    else
      match padres.lookup estacion_actual with
      | none => .error (.keyError estacion_actual)
      | some (estacion_anterior, conexion_id) =>
        reconstruirLoop padres origen_id fuel estacion_anterior
          (ests ++ [estacion_actual]) (cons ++ [conexion_id])

/-- `SistemaRutas._reconstruir_ruta` (main.py lines 360-394): walk, append
the origin, reverse both sequences, and read the destination's final
metric vector.  A walk longer than the predecessor map (only possible on
a cyclic map, which the search never produces) is the embedding's
fuel-exhaustion error. -/
def reconstruir_ruta (padres : List (String × (String × String)))
    (origen_id destino_id : String) (metricas : List (String × Metricas)) :
    Except RouteError Ruta :=
  match reconstruirLoop padres origen_id (padres.length + 1) destino_id [] [] with
  | .error e => .error e
  | .ok (ests, cons) =>
    match metricas.lookup destino_id with
    | none => .error (.keyError destino_id)
    | some m =>
      .ok { estaciones := (ests ++ [origen_id]).reverse,
            conexiones := cons.reverse,
            tiempo_total := m.tiempo,
            distancia_total := m.distancia,
            transbordos := m.transbordos,
            costo := m.costo }

/-- The A* `while` loop (main.py lines 221-303): pop the minimum entry,
lazily discard entries for settled stations, terminate on popping the
destination, otherwise expand the neighbours. -/
def astarLoop (sqrtFn : ℚ → ℚ) (base : BaseConocimiento)
    (origen_id destino_id : String) (destino_coords : ℚ × ℚ)
    (preferencias : List Preferencia) :
    Nat → AStarState → Except RouteError (Option Ruta)
  | 0, _ => .error .fuelExhausted
  | fuel + 1, s =>
    match s.cola with
    | [] => .ok none
    | e :: rest =>
      if e.estacion ∈ s.visitados then
        astarLoop sqrtFn base origen_id destino_id destino_coords preferencias
          fuel { s with cola := rest }
      else
        if e.estacion = destino_id then
          match reconstruir_ruta s.padres origen_id destino_id s.metricas with
          | .error err => .error err
          | .ok ruta => .ok (some ruta)
        else
          match explorar sqrtFn base.estaciones preferencias destino_coords
              e.estacion e.linea base.conexiones
              { s with cola := rest, visitados := e.estacion :: s.visitados } with
          | .error err => .error err
          | .ok s2 =>
            astarLoop sqrtFn base origen_id destino_id destino_coords
              preferencias fuel s2

/-- Fuel that provably outlasts the A* loop (see the termination lemmas):
every iteration pops one entry, and entries are only pushed when a new
station is settled, at most one per connection. -/
def bigFuel (base : BaseConocimiento) : Nat :=
  (base.conexiones.length + 1) * (base.conexiones.length + 2) + 2

/-- `SistemaRutas._buscar_ruta_astar` (main.py lines 192-303): validate
both endpoints (raising `ValueError`, modelled as `invalidInput`,
otherwise), seed the frontier with `(0, origen, None)` and the origin's
zero metric vector, and run the loop. -/
def buscar_ruta_astar (sqrtFn : ℚ → ℚ) (base : BaseConocimiento)
    (origen_id destino_id : String) (preferencias : List Preferencia) :
    Except RouteError (Option Ruta) :=
  match base.estaciones.lookup origen_id with
  | none =>
    .error (.invalidInput ("La estación de origen " ++ origen_id ++ " no existe"))
  | some _ =>
    match base.estaciones.lookup destino_id with
    | none =>
      .error (.invalidInput ("La estación de destino " ++ destino_id ++ " no existe"))
    | some destino =>
      astarLoop sqrtFn base origen_id destino_id destino.coordenadas preferencias
        (bigFuel base)
        { cola := [⟨0, origen_id, none⟩],
          visitados := [],
          padres := [],
          lineas_actuales := [],
          metricas := [(origen_id, ⟨0, 0, 0, 0⟩)] }

/-- `SistemaRutas.calcular_ruta` (main.py lines 169-190): apply the rules
(mutating the knowledge base — the embedding returns the mutated base
alongside the result), default the preferences, and search. -/
def calcular_ruta (sqrtFn : ℚ → ℚ) (base : BaseConocimiento)
    (origen_id destino_id : String) (hora : FechaHora)
    (preferencias : Option (List Preferencia)) :
    BaseConocimiento × Except RouteError (Option Ruta) :=
  let base' := aplicar_reglas base origen_id destino_id hora preferencias
  let prefs := preferencias.getD preferencias_default
  (base', buscar_ruta_astar sqrtFn base' origen_id destino_id prefs)

/-! ### Concrete scenario data -/

/-- A degenerate square-root model used to instantiate the abstract
`sqrtFn` parameter on concrete runs. -/
def sqrtCero : ℚ → ℚ := fun _ => 0

/-- A fixed query instant for the concrete scenarios. -/
def horaTest : FechaHora := ⟨"Monday", (8, 0)⟩

def estA : Estacion := ⟨"A", "Alpha", (0, 0), ["L1"], []⟩

def estB : Estacion := ⟨"B", "Beta", (1, 0), ["L1", "L2"], []⟩

def estC : Estacion := ⟨"C", "Gamma", (2, 0), ["L2"], []⟩

def conAB1 : Conexion := ⟨"A", "B", "L1", 5, 1, true, none⟩

def conBC2 : Conexion := ⟨"B", "C", "L2", 6, 1, true, none⟩

def conBC1 : Conexion := ⟨"B", "C", "L1", 6, 1, true, none⟩

/-- C1 scenario: one edge on line L1 and a congestion rule of factor 2. -/
def base1 : BaseConocimiento :=
  ⟨[("A", estA), ("B", estB)], [("A-B-L1", conAB1)],
   [{ tipo := some "congestion", linea := some "L1", factor := some 2 }]⟩

/-- C2 counterexample scenario: congestion factor 3/2 on a 5-minute edge. -/
def base2c : BaseConocimiento :=
  ⟨[("A", estA), ("B", estB)], [("A-B-L1", conAB1)],
   [{ tipo := some "congestion", linea := some "L1", factor := some (3/2) }]⟩

/-- C2 end-to-end scenario: a two-edge chain on line L1 under congestion
factor 2. -/
def base2 : BaseConocimiento :=
  ⟨[("A", estA), ("B", estB), ("C", estC)],
   [("A-B-L1", conAB1), ("B-C-L1", conBC1)],
   [{ tipo := some "congestion", linea := some "L1", factor := some 2 }]⟩

/-- C3 scenario: A→B on line L1 (5 min), B→C on line L2 (6 min). -/
def base3 : BaseConocimiento :=
  ⟨[("A", estA), ("B", estB), ("C", estC)],
   [("A-B-L1", conAB1), ("B-C-L2", conBC2)], []⟩

/-- C4 counterexample scenario: an active connection into a station id
that is not registered. -/
def base4 : BaseConocimiento :=
  ⟨[("A", estA), ("B", estB)], [("A-X-L1", ⟨"A", "X", "L1", 5, 1, true, none⟩)], []⟩

/-- C10 witness scenario: an inactive connection under a congestion rule. -/
def base10 : BaseConocimiento :=
  ⟨[("A", estA), ("B", estB)], [("A-B-L1", { conAB1 with activa := false })],
   [{ tipo := some "congestion", linea := some "L1", factor := some 2 }]⟩

/-! ### Helper lemmas -/

lemma lookup_map_snd {α β : Type} (f : α → β) :
    ∀ (l : List (String × α)) (k : String),
      (l.map (fun p => (p.1, f p.2))).lookup k = (l.lookup k).map f := by
  intro l k
  induction l with
  | nil => rfl
  | cons p t ih =>
    obtain ⟨a, b⟩ := p
    by_cases hka : k = a
    · subst hka
      simp [List.lookup]
    · have hfalse : (k == a) = false := by simp [hka]
      simp [List.lookup, hfalse, ih]

lemma aplicar_reglas_estaciones (base : BaseConocimiento) (o d : String)
    (hora : FechaHora) (p : Option (List Preferencia)) :
    (aplicar_reglas base o d hora p).estaciones = base.estaciones := rfl

lemma aplicarHorarioConexion_cases (hora : FechaHora) (c : Conexion) :
    aplicarHorarioConexion hora c = c ∨
      aplicarHorarioConexion hora c = { c with activa := false } := by
  unfold aplicarHorarioConexion
  split
  · exact Or.inl rfl
  · split
    · exact Or.inl rfl
    · split
      · exact Or.inl rfl
      · split
        · exact Or.inr rfl
        · exact Or.inl rfl

lemma aplicarHorarioConexion_activa_mono (hora : FechaHora) (c : Conexion) :
    (aplicarHorarioConexion hora c).activa = true → c.activa = true := by
  rcases aplicarHorarioConexion_cases hora c with h | h <;> rw [h] <;> intro h2
  · exact h2
  · cases h2

lemma cierreEstacionConexion_activa_mono (sid : String) (c : Conexion) :
    (cierreEstacionConexion sid c).activa = true → c.activa = true := by
  unfold cierreEstacionConexion
  split <;> intro h
  · cases h
  · exact h

lemma cierreLineaConexion_activa_mono (l : Option String) (c : Conexion) :
    (cierreLineaConexion l c).activa = true → c.activa = true := by
  unfold cierreLineaConexion
  split <;> intro h
  · cases h
  · exact h

lemma mantenimientoConexion_activa_mono (o d : Option String) (c : Conexion) :
    (mantenimientoConexion o d c).activa = true → c.activa = true := by
  unfold mantenimientoConexion
  split <;> intro h
  · cases h
  · exact h

lemma congestionConexion_activa (l : Option String) (f : ℚ) (c : Conexion) :
    (congestionConexion l f c).activa = c.activa := by
  unfold congestionConexion
  split <;> rfl

lemma aplicarRegla_activa_mono (est : List (String × Estacion)) (r : Regla)
    (cs : List (String × Conexion)) (k : String) (c : Conexion)
    (hc : cs.lookup k = some c) :
    ∃ c', (aplicarRegla est r cs).lookup k = some c' ∧
      (c'.activa = true → c.activa = true) := by
  unfold aplicarRegla
  split
  · rename_i h1
    cases hsid : r.estacion_id with
    | none => exact ⟨c, hc, fun h => h⟩
    | some sid =>
      by_cases hreg : (est.lookup sid).isSome
      · refine ⟨cierreEstacionConexion sid c, ?_, cierreEstacionConexion_activa_mono sid c⟩
        simp [hreg, lookup_map_snd, hc]
      · simp only [hreg]
        exact ⟨c, by simp [hc], fun h => h⟩
  · split
    · exact ⟨cierreLineaConexion r.linea c, by simp [lookup_map_snd, hc],
        cierreLineaConexion_activa_mono r.linea c⟩
    · split
      · exact ⟨mantenimientoConexion r.origen r.destino c,
          by simp [lookup_map_snd, hc],
          mantenimientoConexion_activa_mono r.origen r.destino c⟩
      · split
        · refine ⟨congestionConexion r.linea (r.factor.getD (3/2)) c,
            by simp [lookup_map_snd, hc], ?_⟩
          rw [congestionConexion_activa]
          exact fun h => h
        · exact ⟨c, hc, fun h => h⟩

lemma foldl_reglas_activa_mono (est : List (String × Estacion)) :
    ∀ (rs : List Regla) (cs : List (String × Conexion)) (k : String) (c : Conexion),
      cs.lookup k = some c →
      ∃ c', (rs.foldl (fun cs r => aplicarRegla est r cs) cs).lookup k = some c' ∧
        (c'.activa = true → c.activa = true) := by
  intro rs
  induction rs with
  | nil => exact fun cs k c hc => ⟨c, hc, fun h => h⟩
  | cons r rest ih =>
    intro cs k c hc
    obtain ⟨c1, hc1, hm1⟩ := aplicarRegla_activa_mono est r cs k c hc
    obtain ⟨c2, hc2, hm2⟩ := ih (aplicarRegla est r cs) k c1 hc1
    exact ⟨c2, hc2, fun h => hm1 (hm2 h)⟩

lemma timeLt_iff (a b : Nat × Nat) :
    timeLt a b = true ↔ (a.1 < b.1 ∨ (a.1 = b.1 ∧ a.2 < b.2)) := by
  simp [timeLt]

lemma aplicarHorarioConexion_activa_iff (hora : FechaHora) (c : Conexion) :
    ((aplicarHorarioConexion hora c).activa = false ↔
      (c.activa = false ∨ ∃ h hd, c.horario = some h ∧
        h.lookup hora.dia_semana.toLower = some hd ∧
        (timeLt hora.hora hd.inicio = true ∨ timeLt hd.fin hora.hora = true))) := by
  unfold aplicarHorarioConexion
  cases hca : c.activa with
  | false => simp [hca]
  | true =>
    cases hh : c.horario with
    | none => simp [hca]
    | some hl =>
      cases hdl : hl.lookup hora.dia_semana.toLower with
      | none => simp [hca, hdl]
      | some hdia =>
        by_cases hcond :
            (timeLt hora.hora hdia.inicio || timeLt hdia.fin hora.hora) = true
        · simp [hca, hdl, hcond]
          exact Bool.or_eq_true_iff.mp hcond
        · simp only [Bool.or_eq_true_iff, not_or, Bool.not_eq_true] at hcond
          simp [hca, hdl, hcond.1, hcond.2]

lemma aplicarHorarioConexion_of_none (hora : FechaHora) (c : Conexion)
    (h : c.horario = none) : aplicarHorarioConexion hora c = c := by
  unfold aplicarHorarioConexion
  rw [h]
  split <;> rfl

lemma aplicarHorarioConexion_of_no_entry (hora : FechaHora) (c : Conexion)
    (hl : List (String × HorarioDia)) (h : c.horario = some hl)
    (hlk : hl.lookup hora.dia_semana.toLower = none) :
    aplicarHorarioConexion hora c = c := by
  unfold aplicarHorarioConexion
  rw [h]
  split
  · rfl
  · simp [hlk]

lemma aplicarHorarioConexion_tiempo (hora : FechaHora) (c : Conexion) :
    (aplicarHorarioConexion hora c).tiempo_promedio = c.tiempo_promedio := by
  rcases aplicarHorarioConexion_cases hora c with h | h <;> rw [h]

lemma aplicarHorarioConexion_linea (hora : FechaHora) (c : Conexion) :
    (aplicarHorarioConexion hora c).linea = c.linea := by
  rcases aplicarHorarioConexion_cases hora c with h | h <;> rw [h]

/-- One active-connection hop in a knowledge base. -/
def pasoActivo (base : BaseConocimiento) (x y : String) : Prop :=
  ∃ p ∈ base.conexiones, p.2.activa = true ∧ p.2.origen = x ∧ p.2.destino = y

/-- Reachability along active connections. -/
def Alcanzable (base : BaseConocimiento) (x y : String) : Prop :=
  Relation.ReflTransGen (pasoActivo base) x y

/-! ### Claim theorems -/

/-- C10: rule application only ever shrinks the active connection set —
every connection whose `activa` flag is `true` after `aplicar_reglas`
already had it `true` before, so no pass (schedule filtering, station
closure, line closure, segment maintenance, congestion) reactivates a
connection. -/
theorem c10_reglas_monotonas :
    ∀ (base : BaseConocimiento) (o d : String) (hora : FechaHora)
      (p : Option (List Preferencia)) (k : String) (c c' : Conexion),
      base.conexiones.lookup k = some c →
      (aplicar_reglas base o d hora p).conexiones.lookup k = some c' →
      c'.activa = true → c.activa = true := by
  intro base o d hora p k c c' hc hc' hact
  simp only [aplicar_reglas] at hc'
  have h1 : (aplicarHorario hora base.conexiones).lookup k =
      some (aplicarHorarioConexion hora c) := by
    unfold aplicarHorario
    rw [lookup_map_snd, hc]
    rfl
  obtain ⟨c2, hc2, hm⟩ := foldl_reglas_activa_mono base.estaciones
    base.reglas_logicas (aplicarHorario hora base.conexiones) k
    (aplicarHorarioConexion hora c) h1
  rw [hc2] at hc'
  cases hc'
  exact aplicarHorarioConexion_activa_mono hora c (hm hact)

/-- C10 witness: a connection that starts inactive is still inactive
after applying a closure rule and a congestion rule. -/
theorem c10_reglas_monotonas_testigo :
    base10.conexiones.lookup "A-B-L1" = some { conAB1 with activa := false } ∧
    (aplicar_reglas base10 "A" "B" horaTest none).conexiones.lookup "A-B-L1" =
      some { conAB1 with activa := false, tiempo_promedio := 10 } ∧
    (({ conAB1 with activa := false, tiempo_promedio := 10 } : Conexion).activa = true →
      ({ conAB1 with activa := false } : Conexion).activa = true) :=
  ⟨by with_unfolding_all decide, by with_unfolding_all rfl,
    c10_reglas_monotonas base10 "A" "B" horaTest none "A-B-L1"
      { conAB1 with activa := false }
      { conAB1 with activa := false, tiempo_promedio := 10 }
      (by with_unfolding_all decide) (by with_unfolding_all rfl)⟩

/-- C9: schedule filtering deactivates a connection exactly when it is
active, has a schedule entry under the query's lowercase weekday name,
and the clock time is strictly before that entry's start or strictly
after its end (lexicographic on (hour, minute), so the boundary instants
stay active); connections without a schedule or without an entry for the
day are returned unchanged, and the pass changes nothing but `activa`. -/
theorem c9_filtrado_horario :
    ∀ (hora : FechaHora) (cs : List (String × Conexion)) (k : String) (c : Conexion),
      cs.lookup k = some c →
      ∃ c', (aplicarHorario hora cs).lookup k = some c' ∧
        (c' = c ∨ c' = { c with activa := false }) ∧
        (c'.activa = false ↔
          (c.activa = false ∨ ∃ h hd, c.horario = some h ∧
            h.lookup hora.dia_semana.toLower = some hd ∧
            (timeLt hora.hora hd.inicio = true ∨ timeLt hd.fin hora.hora = true))) ∧
        (c.horario = none → c' = c) ∧
        (∀ h, c.horario = some h → h.lookup hora.dia_semana.toLower = none → c' = c) ∧
        (∀ a b : Nat × Nat, timeLt a b = true ↔ (a.1 < b.1 ∨ (a.1 = b.1 ∧ a.2 < b.2))) := by
  intro hora cs k c hc
  refine ⟨aplicarHorarioConexion hora c, ?_, ?_, ?_, ?_, ?_, ?_⟩
  · unfold aplicarHorario
    rw [lookup_map_snd, hc]
    rfl
  · exact aplicarHorarioConexion_cases hora c
  · exact aplicarHorarioConexion_activa_iff hora c
  · exact aplicarHorarioConexion_of_none hora c
  · exact fun h hsome hnone => aplicarHorarioConexion_of_no_entry hora c h hsome hnone
  · exact timeLt_iff

/-- C9 witness: the filtering pass applied to a single scheduled
connection at a query instant inside its window. -/
theorem c9_filtrado_horario_testigo :
    ([("A-B-L1", conAB1)].lookup "A-B-L1" = some conAB1) ∧
    (∃ c', (aplicarHorario horaTest [("A-B-L1", conAB1)]).lookup "A-B-L1" = some c' ∧
      (c' = conAB1 ∨ c' = { conAB1 with activa := false }) ∧
      (c'.activa = false ↔
        (conAB1.activa = false ∨ ∃ h hd, conAB1.horario = some h ∧
          h.lookup horaTest.dia_semana.toLower = some hd ∧
          (timeLt horaTest.hora hd.inicio = true ∨ timeLt hd.fin horaTest.hora = true))) ∧
      (conAB1.horario = none → c' = conAB1) ∧
      (∀ h, conAB1.horario = some h →
        h.lookup horaTest.dia_semana.toLower = none → c' = conAB1) ∧
      (∀ a b : Nat × Nat, timeLt a b = true ↔ (a.1 < b.1 ∨ (a.1 = b.1 ∧ a.2 < b.2)))) :=
  ⟨by with_unfolding_all decide, c9_filtrado_horario horaTest [("A-B-L1", conAB1)] "A-B-L1" conAB1 (by with_unfolding_all decide)⟩

/-- C5: an unknown origin or destination id makes the query fail with the
`invalidInput` variant (the source's `ValueError`) before any search
state is built. -/
theorem c5_entrada_invalida :
    ∀ (sqrtFn : ℚ → ℚ) (base : BaseConocimiento) (o d : String)
      (hora : FechaHora) (p : Option (List Preferencia)),
      (base.estaciones.lookup o = none →
        (calcular_ruta sqrtFn base o d hora p).2 =
          .error (.invalidInput ("La estación de origen " ++ o ++ " no existe"))) ∧
      ((base.estaciones.lookup o).isSome → base.estaciones.lookup d = none →
        (calcular_ruta sqrtFn base o d hora p).2 =
          .error (.invalidInput ("La estación de destino " ++ d ++ " no existe"))) := by
  intro sqrtFn base o d hora p
  constructor
  · intro h
    simp only [calcular_ruta, buscar_ruta_astar, aplicar_reglas_estaciones, h]
  · intro h1 h2
    obtain ⟨st, hst⟩ := Option.isSome_iff_exists.mp h1
    simp only [calcular_ruta, buscar_ruta_astar, aplicar_reglas_estaciones, hst, h2]

/-- C5 witness: querying `base3` from the unknown station `"X"`, and to
it. -/
theorem c5_entrada_invalida_testigo :
    (base3.estaciones.lookup "X" = none) ∧
    (calcular_ruta sqrtCero base3 "X" "C" horaTest none).2 =
      .error (.invalidInput ("La estación de origen " ++ "X" ++ " no existe")) ∧
    ((base3.estaciones.lookup "A").isSome) ∧
    (base3.estaciones.lookup "X" = none) ∧
    (calcular_ruta sqrtCero base3 "A" "X" horaTest none).2 =
      .error (.invalidInput ("La estación de destino " ++ "X" ++ " no existe")) :=
  ⟨by with_unfolding_all decide,
   (c5_entrada_invalida sqrtCero base3 "X" "C" horaTest none).1 (by with_unfolding_all decide),
   by with_unfolding_all decide, by with_unfolding_all decide,
   (c5_entrada_invalida sqrtCero base3 "A" "X" horaTest none).2 (by with_unfolding_all decide) (by with_unfolding_all decide)⟩

lemma reconstruirLoop_len (padres : List (String × (String × String)))
    (origen_id : String) :
    ∀ (fuel : Nat) (cur : String) (ests cons : List String)
      (res : List String × List String),
      reconstruirLoop padres origen_id fuel cur ests cons = .ok res →
      res.1.length + cons.length = res.2.length + ests.length := by
  intro fuel
  induction fuel with
  | zero => intro cur ests cons res h; cases h
  | succ n ih =>
    intro cur ests cons res h
    unfold reconstruirLoop at h
    by_cases hco : cur = origen_id
    · rw [if_pos hco] at h
      cases h
      exact Nat.add_comm ests.length cons.length
    · rw [if_neg hco] at h
      cases hlk : padres.lookup cur with
      | none => rw [hlk] at h; cases h
      | some pc =>
        rw [hlk] at h
        have := ih pc.1 (ests ++ [cur]) (cons ++ [pc.2]) res h
        simp at this
        omega

/-- C6: every route a successful reconstruction returns has exactly one
fewer connection id than station ids. -/
theorem c6_longitud_conexiones :
    ∀ (padres : List (String × (String × String))) (o d : String)
      (metricas : List (String × Metricas)) (ruta : Ruta),
      reconstruir_ruta padres o d metricas = .ok ruta →
      ruta.estaciones.length = ruta.conexiones.length + 1 := by
  intro padres o d metricas ruta h
  unfold reconstruir_ruta at h
  cases hloop : reconstruirLoop padres o (padres.length + 1) d [] [] with
  | error e => rw [hloop] at h; cases h
  | ok res =>
    rw [hloop] at h
    cases hm : metricas.lookup d with
    | none => rw [hm] at h; cases h
    | some m =>
      rw [hm] at h
      cases h
      have hlen := reconstruirLoop_len padres o (padres.length + 1) d [] [] res hloop
      simp at hlen ⊢
      omega

/-- C6 witness: the trivial reconstruction at the origin itself. -/
theorem c6_longitud_conexiones_testigo :
    (reconstruir_ruta [] "A" "A" [("A", ⟨0, 0, 0, 0⟩)] =
      .ok ⟨["A"], [], 0, 0, 0, 0⟩) ∧
    (["A"] : List String).length = ([] : List String).length + 1 :=
  ⟨by with_unfolding_all rfl,
    c6_longitud_conexiones [] "A" "A" [("A", ⟨0, 0, 0, 0⟩)]
      ⟨["A"], [], 0, 0, 0, 0⟩ (by with_unfolding_all rfl)⟩

lemma lineaLe_refl (x : Option String) : lineaLe x x = true := by
  cases x <;> simp [lineaLe]

lemma lineaLe_total (x y : Option String) :
    lineaLe x y = true ∨ lineaLe y x = true := by
  cases x <;> cases y <;> simp [lineaLe]
  exact le_total _ _

lemma lineaLe_trans (x y z : Option String) :
    lineaLe x y = true → lineaLe y z = true → lineaLe x z = true := by
  cases x <;> cases y <;> cases z <;> simp [lineaLe]
  exact fun h1 h2 => le_trans h1 h2

/-- The Prop form of the heap-entry tuple comparison. -/
lemma entryLe_iff (a b : Entry) :
    entryLe a b = true ↔
      (a.prioridad < b.prioridad ∨ (a.prioridad = b.prioridad ∧
        (a.estacion < b.estacion ∨ (a.estacion = b.estacion ∧
          lineaLe a.linea b.linea = true)))) := by
  simp [entryLe]

lemma entryLe_refl (a : Entry) : entryLe a a = true := by
  rw [entryLe_iff]
  exact Or.inr ⟨rfl, Or.inr ⟨rfl, lineaLe_refl a.linea⟩⟩

lemma entryLe_total (a b : Entry) : entryLe a b = true ∨ entryLe b a = true := by
  rw [entryLe_iff, entryLe_iff]
  rcases lt_trichotomy a.prioridad b.prioridad with h | h | h
  · exact Or.inl (Or.inl h)
  · rcases lt_trichotomy a.estacion b.estacion with g | g | g
    · exact Or.inl (Or.inr ⟨h, Or.inl g⟩)
    · rcases lineaLe_total a.linea b.linea with l | l
      · exact Or.inl (Or.inr ⟨h, Or.inr ⟨g, l⟩⟩)
      · exact Or.inr (Or.inr ⟨h.symm, Or.inr ⟨g.symm, l⟩⟩)
    · exact Or.inr (Or.inr ⟨h.symm, Or.inl g⟩)
  · exact Or.inr (Or.inl h)

lemma entryLe_trans (a b c : Entry) :
    entryLe a b = true → entryLe b c = true → entryLe a c = true := by
  intro hab hbc
  rw [entryLe_iff] at hab hbc ⊢
  rcases hab with h1 | ⟨h1, h2⟩
  · rcases hbc with g1 | ⟨g1, _⟩
    · exact Or.inl (h1.trans g1)
    · exact Or.inl (lt_of_lt_of_le h1 g1.le)
  · rcases hbc with g1 | ⟨g1, g2⟩
    · exact Or.inl (lt_of_le_of_lt h1.le g1)
    · refine Or.inr ⟨h1.trans g1, ?_⟩
      rcases h2 with h2 | ⟨h2, h3⟩
      · rcases g2 with g2 | ⟨g2, _⟩
        · exact Or.inl (h2.trans g2)
        · exact Or.inl (lt_of_lt_of_le h2 g2.le)
      · rcases g2 with g2 | ⟨g2, g3⟩
        · exact Or.inl (lt_of_le_of_lt h2.le g2)
        · exact Or.inr ⟨h2.trans g2, lineaLe_trans _ _ _ h3 g3⟩

lemma mem_heapPush (e : Entry) :
    ∀ (q : List Entry) (y : Entry), y ∈ heapPush e q ↔ y = e ∨ y ∈ q := by
  intro q
  induction q with
  | nil => simp [heapPush]
  | cons x xs ih =>
    intro y
    unfold heapPush
    by_cases h : entryLe e x = true
    · rw [if_pos h]
      simp only [List.mem_cons]
    · rw [if_neg h]
      simp only [List.mem_cons, ih y]
      tauto

lemma heapPush_pairwise (e : Entry) :
    ∀ q : List Entry, q.Pairwise (fun a b => entryLe a b = true) →
      (heapPush e q).Pairwise (fun a b => entryLe a b = true) := by
  intro q
  induction q with
  | nil => intro _; simp [heapPush]
  | cons x xs ih =>
    intro hp
    rw [List.pairwise_cons] at hp
    obtain ⟨hx, hxs⟩ := hp
    unfold heapPush
    by_cases h : entryLe e x = true
    · rw [if_pos h]
      refine List.Pairwise.cons ?_ (List.Pairwise.cons hx hxs)
      intro y hy
      rcases List.mem_cons.mp hy with rfl | hy'
      · exact h
      · exact entryLe_trans e x y h (hx y hy')
    · rw [if_neg h]
      refine List.Pairwise.cons ?_ (ih hxs)
      intro y hy
      rcases (mem_heapPush e xs y).mp hy with rfl | hy'
      · rcases entryLe_total y x with he | he
        · exact absurd he h
        · exact he
      · exact hx y hy'

/-- C8: the embedded query is a pure function of its inputs, so two runs
over identical collections, endpoints, time and preferences return the
same output; and the priority queue respects the lexicographic
`(prioridad, estacion, linea)` tuple order: pushing preserves sortedness
and the popped head is below every queued entry. -/
theorem c8_determinismo :
    (∀ (e : Entry) (q : List Entry),
      q.Pairwise (fun a b => entryLe a b = true) →
      (heapPush e q).Pairwise (fun a b => entryLe a b = true)) ∧
    (∀ (e : Entry) (q : List Entry),
      (e :: q).Pairwise (fun a b => entryLe a b = true) →
      ∀ x ∈ e :: q, entryLe e x = true) ∧
    (∀ (sqrtFn : ℚ → ℚ) (b1 b2 : BaseConocimiento) (o d : String)
        (hora : FechaHora) (p : Option (List Preferencia)),
      b1 = b2 →
      calcular_ruta sqrtFn b1 o d hora p = calcular_ruta sqrtFn b2 o d hora p) := by
  refine ⟨heapPush_pairwise, ?_, ?_⟩
  · intro e q h x hx
    rcases List.mem_cons.mp hx with rfl | hx'
    · exact entryLe_refl x
    · exact (List.pairwise_cons.mp h).1 x hx'
  · intro sqrtFn b1 b2 o d hora p hb
    rw [hb]

/-- C8 witness: a concrete push into a sorted one-entry queue, the
head-minimality of the resulting queue, and a repeated concrete run. -/
theorem c8_determinismo_testigo :
    (([⟨0, "B", some "L1"⟩] : List Entry).Pairwise (fun a b => entryLe a b = true)) ∧
    ((heapPush ⟨0, "A", some "L2"⟩ [⟨0, "B", some "L1"⟩]).Pairwise
      (fun a b => entryLe a b = true)) ∧
    (([⟨0, "A", some "L2"⟩, ⟨0, "B", some "L1"⟩] : List Entry).Pairwise
      (fun a b => entryLe a b = true)) ∧
    (∀ x ∈ ([⟨0, "A", some "L2"⟩, ⟨0, "B", some "L1"⟩] : List Entry),
      entryLe ⟨0, "A", some "L2"⟩ x = true) ∧
    (base3 = base3) ∧
    (calcular_ruta sqrtCero base3 "A" "C" horaTest none =
      calcular_ruta sqrtCero base3 "A" "C" horaTest none) :=
  ⟨by with_unfolding_all decide,
   c8_determinismo.1 ⟨0, "A", some "L2"⟩ [⟨0, "B", some "L1"⟩]
     (by with_unfolding_all decide),
   by with_unfolding_all decide,
   c8_determinismo.2.1 ⟨0, "A", some "L2"⟩ [⟨0, "B", some "L1"⟩]
     (by with_unfolding_all decide),
   rfl,
   c8_determinismo.2.2 sqrtCero base3 base3 "A" "C" horaTest none rfl⟩

/-- C1: the source mutates the shared knowledge base during a query — the
congestion rule compounds across two identical queries (5 → 10 → 20
minutes), so the base connection collection changes and the second query
returns a different route than the first. -/
theorem c1_estado_compartido_mutado :
    (calcular_ruta sqrtCero base1 "A" "B" horaTest none).1.conexiones ≠
      base1.conexiones ∧
    (calcular_ruta sqrtCero base1 "A" "B" horaTest none).2 =
      .ok (some ⟨["A", "B"], ["A-B-L1"], 10, 1, 0, 10⟩) ∧
    (calcular_ruta sqrtCero
        (calcular_ruta sqrtCero base1 "A" "B" horaTest none).1
        "A" "B" horaTest none).2 =
      .ok (some ⟨["A", "B"], ["A-B-L1"], 20, 1, 0, 10⟩) ∧
    (calcular_ruta sqrtCero
        (calcular_ruta sqrtCero base1 "A" "B" horaTest none).1
        "A" "B" horaTest none).2 ≠
      (calcular_ruta sqrtCero base1 "A" "B" horaTest none).2 := by
  have h1 : (calcular_ruta sqrtCero base1 "A" "B" horaTest none).2 =
      .ok (some ⟨["A", "B"], ["A-B-L1"], 10, 1, 0, 10⟩) := by
    with_unfolding_all rfl
  have h2 : (calcular_ruta sqrtCero
      (calcular_ruta sqrtCero base1 "A" "B" horaTest none).1
      "A" "B" horaTest none).2 =
      .ok (some ⟨["A", "B"], ["A-B-L1"], 20, 1, 0, 10⟩) := by
    with_unfolding_all rfl
  refine ⟨by with_unfolding_all decide, h1, h2, ?_⟩
  rw [h1, h2]
  simp

/-- C2 counterexample: with integer avg_time 5 and factor 3/2 the code
stores `int(5 * 1.5) = 7`, while rounding `7.5` to integer minutes gives
8 — so "rounded" is not what the code does. -/
theorem c2_redondeo_contraejemplo :
    ((aplicar_reglas base2c "A" "B" horaTest none).conexiones.lookup "A-B-L1").map
        Conexion.tiempo_promedio = some 7 ∧
    round ((5 : ℚ) * (3/2)) = (8 : ℤ) ∧ ((7 : ℤ) ≠ 8) :=
  ⟨by with_unfolding_all rfl, by with_unfolding_all rfl, by decide⟩

/-- C2 (amended): a Congestion rule with factor f sets each target-line
connection's avg_time to `int(t * f)`, i.e. t·f truncated toward zero
(the floor for nonnegative values) rather than rounded to nearest; and an
end-to-end query whose route uses only line-L edges reflects the increase
in total_time (5+6 minutes become 10+12 = 22 under factor 2). -/
theorem c2_congestion :
    (∀ (base : BaseConocimiento) (o d : String) (hora : FechaHora)
        (p : Option (List Preferencia)) (L : String) (f : ℚ) (k : String)
        (c : Conexion),
      1 < f →
      base.reglas_logicas =
        [⟨some "congestion", none, some L, none, none, some f⟩] →
      base.conexiones.lookup k = some c → c.linea = L →
      ∃ c', (aplicar_reglas base o d hora p).conexiones.lookup k = some c' ∧
        c'.tiempo_promedio = pyInt ((c.tiempo_promedio : ℚ) * f)) ∧
    (∀ sqrtFn : ℚ → ℚ,
      (calcular_ruta sqrtFn base2 "A" "C" horaTest none).2 =
        .ok (some ⟨["A", "B", "C"], ["A-B-L1", "B-C-L1"], 22, 2, 0, 20⟩)) := by
  constructor
  · intro base o d hora p L f k c hf hr hc hL
    refine ⟨congestionConexion (some L) f (aplicarHorarioConexion hora c), ?_, ?_⟩
    · have h1 : (aplicarHorario hora base.conexiones).lookup k =
          some (aplicarHorarioConexion hora c) := by
        unfold aplicarHorario
        rw [lookup_map_snd, hc]
        rfl
      simp only [aplicar_reglas, hr, List.foldl_cons, List.foldl_nil]
      unfold aplicarRegla
      simp only [Option.some.injEq, String.reduceEq, if_false, reduceIte,
        Option.getD_some]
      rw [lookup_map_snd, h1]
      rfl
    · unfold congestionConexion
      rw [if_pos (by rw [aplicarHorarioConexion_linea, hL])]
      simp [aplicarHorarioConexion_tiempo]
  · intro sqrtFn
    with_unfolding_all rfl

/-- C2 witness: the amended congestion statement at base2c (factor 3/2 on
a 5-minute edge of line L1). -/
theorem c2_congestion_testigo :
    ((1 : ℚ) < 3/2) ∧
    (∃ c', (aplicar_reglas base2c "A" "B" horaTest none).conexiones.lookup "A-B-L1" =
        some c' ∧
      c'.tiempo_promedio = pyInt ((conAB1.tiempo_promedio : ℚ) * (3/2))) :=
  ⟨by norm_num,
   c2_congestion.1 base2c "A" "B" horaTest none "L1" (3/2) "A-B-L1" conAB1
     (by norm_num) rfl (by with_unfolding_all rfl) rfl⟩

/-- C3: in the two-line scenario A→B (L1, 5 min), B→C (L2, 6 min) the
query A→C returns total_time 16 = 5 + 6 + 5 (transfer penalty) with one
transfer; and in general an edge adds its avg_time plus 5 minutes and one
transfer exactly when the inbound line is set and differs from the edge's
line, plus the edge's distance and a flat cost of 10. -/
theorem c3_escenario_transbordo :
    (∀ sqrtFn : ℚ → ℚ,
      (calcular_ruta sqrtFn base3 "A" "C" horaTest none).2 =
        .ok (some ⟨["A", "B", "C"], ["A-B-L1", "B-C-L2"], 16, 2, 1, 20⟩)) ∧
    (∀ (la : Option String) (c : Conexion) (m : Metricas),
      (cambioLinea la c = true ↔ ∃ l, la = some l ∧ l ≠ c.linea) ∧
      (metricasArista la c m).tiempo =
        m.tiempo + c.tiempo_promedio + (if cambioLinea la c then 5 else 0) ∧
      (metricasArista la c m).transbordos =
        m.transbordos + (if cambioLinea la c then 1 else 0) ∧
      (metricasArista la c m).distancia = m.distancia + c.distancia ∧
      (metricasArista la c m).costo = m.costo + 10) := by
  constructor
  · intro sqrtFn
    with_unfolding_all rfl
  · intro la c m
    refine ⟨?_, (add_assoc m.tiempo c.tiempo_promedio _).symm, rfl, rfl, rfl⟩
    cases la with
    | none => simp [cambioLinea]
    | some l => simp [cambioLinea]

/-- C4 counterexample: with both endpoints registered but an active
connection leading to the unregistered station id "X", the search raises
the source's `KeyError` (modelled as the `keyError` variant) instead of
returning the NoRouteFound value. -/
theorem c4_conexion_colgante :
    (calcular_ruta sqrtCero base4 "A" "B" horaTest none).2 =
      .error (.keyError "X") ∧
    (Except.error (RouteError.keyError "X") : Except RouteError (Option Ruta)) ≠
      .ok none :=
  ⟨by with_unfolding_all rfl, fun h => Except.noConfusion h⟩

lemma lookup_append {α : Type} (l1 l2 : List (String × α)) (k : String) :
    (l1 ++ l2).lookup k = (l1.lookup k).or (l2.lookup k) := by
  induction l1 with
  | nil => simp [List.lookup]
  | cons p t ih =>
    obtain ⟨a, b⟩ := p
    by_cases hka : k = a
    · subst hka
      simp [List.lookup]
    · have hf : (k == a) = false := by simp [hka]
      simp [List.lookup, hf, ih]

lemma lookup_update_map {α : Type} (k : String) (v : α) :
    ∀ (l : List (String × α)) (k' : String),
      (l.map (fun p => if p.1 = k then (k, v) else p)).lookup k' =
        if k' = k then (if (l.lookup k).isSome then some v else none)
        else l.lookup k' := by
  intro l
  induction l with
  | nil =>
    intro k'
    simp [List.lookup]
  | cons p t ih =>
    intro k'
    obtain ⟨a, b⟩ := p
    simp only [List.map_cons]
    by_cases hak : a = k
    · subst hak
      rw [if_pos rfl]
      by_cases hk' : k' = a
      · subst hk'
        simp [List.lookup]
      · have hf : (k' == a) = false := by simp [hk']
        simp [List.lookup, hf, hk', ih]
    · rw [if_neg hak]
      by_cases hk' : k' = a
      · subst hk'
        have hne : ¬(k' = k) := fun h => hak h
        simp [List.lookup, hne]
      · have hf : (k' == a) = false := by simp [hk']
        have hka : (k == a) = false := by
          rw [beq_eq_false_iff_ne]
          exact fun h => hak h.symm
        simp [List.lookup, hf, hka, ih]
        rw [hka]

lemma dictSet_lookup {α : Type} (l : List (String × α)) (k : String) (v : α)
    (k' : String) :
    (dictSet l k v).lookup k' = if k' = k then some v else l.lookup k' := by
  unfold dictSet
  by_cases hk : (l.lookup k).isSome
  · rw [if_pos hk, lookup_update_map]
    by_cases hk' : k' = k
    · simp [hk', hk]
    · simp [hk']
  · rw [if_neg hk, lookup_append]
    by_cases hk' : k' = k
    · subst hk'
      have hnone : l.lookup k' = none := Option.not_isSome_iff_eq_none.mp hk
      simp [hnone, List.lookup]
    · have hf : (k' == k) = false := by simp [hk']
      simp only [List.lookup, hf, if_neg hk']
      cases l.lookup k' <;> rfl

lemma length_heapPush (e : Entry) :
    ∀ q : List Entry, (heapPush e q).length = q.length + 1 := by
  intro q
  induction q with
  | nil => rfl
  | cons x xs ih =>
    unfold heapPush
    by_cases h : entryLe e x = true
    · rw [if_pos h]
      simp
    · rw [if_neg h]
      simp [ih]

/-- Invariant preservation and success of the neighbour-expansion loop:
on a knowledge base whose active connections all lead to registered
stations, expanding from a reachable station never raises, keeps every
queued station reachable with recorded metrics, leaves the settled set
alone, pushes at most one entry per scanned connection, and only ever
enqueues scanned destinations. -/
lemma explorar_ok (sqrtFn : ℚ → ℚ) (eff : BaseConocimiento) (o : String)
    (prefs : List Preferencia) (dc : ℚ × ℚ) (cur : String) (la : Option String)
    (hcur : Alcanzable eff o cur) :
    ∀ (cs : List (String × Conexion)) (s : AStarState),
      (∀ p ∈ cs, p ∈ eff.conexiones) →
      (∀ p ∈ cs, p.2.activa = true → (eff.estaciones.lookup p.2.destino).isSome) →
      (s.metricas.lookup cur).isSome →
      (∀ e ∈ s.cola, Alcanzable eff o e.estacion ∧
        (s.metricas.lookup e.estacion).isSome) →
      ∃ s', explorar sqrtFn eff.estaciones prefs dc cur la cs s = .ok s' ∧
        (∀ e ∈ s'.cola, Alcanzable eff o e.estacion ∧
          (s'.metricas.lookup e.estacion).isSome) ∧
        s'.visitados = s.visitados ∧
        s'.cola.length ≤ s.cola.length + cs.length ∧
        (∀ e ∈ s'.cola, e ∈ s.cola ∨
          e.estacion ∈ cs.map (fun p => p.2.destino)) := by
  intro cs
  induction cs with
  | nil =>
    intro s _ _ _ hinv
    exact ⟨s, rfl, hinv, rfl, Nat.le_refl _, fun e he => Or.inl he⟩
  | cons pc rest ih =>
    intro s hsub hwf hm hinv
    obtain ⟨cid, c⟩ := pc
    have hsubr : ∀ p ∈ rest, p ∈ eff.conexiones :=
      fun p hp => hsub p (List.mem_cons_of_mem _ hp)
    have hwfr : ∀ p ∈ rest, p.2.activa = true →
        (eff.estaciones.lookup p.2.destino).isSome :=
      fun p hp => hwf p (List.mem_cons_of_mem _ hp)
    unfold explorar
    by_cases hact : c.activa = false
    · rw [if_pos hact]
      obtain ⟨s', h1, h2, h3, h4, h5⟩ := ih s hsubr hwfr hm hinv
      refine ⟨s', h1, h2, h3, by simp only [List.length_cons]; omega, ?_⟩
      intro e he
      rcases h5 e he with h | h
      · exact Or.inl h
      · exact Or.inr (by simp only [List.map_cons, List.mem_cons]; exact Or.inr h)
    · rw [if_neg hact]
      have hact' : c.activa = true := by
        cases h : c.activa
        · exact absurd h hact
        · rfl
      by_cases horig : c.origen ≠ cur
      · rw [if_pos horig]
        obtain ⟨s', h1, h2, h3, h4, h5⟩ := ih s hsubr hwfr hm hinv
        refine ⟨s', h1, h2, h3, by simp only [List.length_cons]; omega, ?_⟩
        intro e he
        rcases h5 e he with h | h
        · exact Or.inl h
        · exact Or.inr (by simp only [List.map_cons, List.mem_cons]; exact Or.inr h)
      · rw [if_neg horig]
        have horig' : c.origen = cur := not_not.mp horig
        by_cases hvis : c.destino ∈ s.visitados
        · rw [if_pos hvis]
          obtain ⟨s', h1, h2, h3, h4, h5⟩ := ih s hsubr hwfr hm hinv
          refine ⟨s', h1, h2, h3, by simp only [List.length_cons]; omega, ?_⟩
          intro e he
          rcases h5 e he with h | h
          · exact Or.inl h
          · exact Or.inr (by simp only [List.map_cons, List.mem_cons]; exact Or.inr h)
        · rw [if_neg hvis]
          obtain ⟨mcur, hmcur⟩ := Option.isSome_iff_exists.mp hm
          simp only [hmcur]
          have hpaso : pasoActivo eff cur c.destino :=
            ⟨(cid, c), hsub (cid, c) (List.mem_cons_self _ _), hact', horig', rfl⟩
          have hdest : Alcanzable eff o c.destino :=
            Relation.ReflTransGen.tail hcur hpaso
          by_cases hacc : (match s.metricas.lookup c.destino with
              | none => true
              | some actuales =>
                es_mejor_ruta (metricasArista la c mcur) actuales prefs) = true
          · rw [if_pos hacc]
            have hst : (eff.estaciones.lookup c.destino).isSome :=
              hwf (cid, c) (List.mem_cons_self _ _) hact'
            obtain ⟨st, hstl⟩ := Option.isSome_iff_exists.mp hst
            simp only [hstl]
            have hmono : ∀ k',
                (s.metricas.lookup k').isSome →
                ((dictSet s.metricas c.destino
                  (metricasArista la c mcur)).lookup k').isSome := by
              intro k' h
              rw [dictSet_lookup]
              by_cases hkk : k' = c.destino
              · simp [hkk]
              · simpa [hkk] using h
            have hdestm :
                ((dictSet s.metricas c.destino
                  (metricasArista la c mcur)).lookup c.destino).isSome := by
              rw [dictSet_lookup]
              simp
            have hinvN : ∀ e ∈ heapPush
                  ⟨calcular_prioridad (metricasArista la c mcur)
                      (calcular_distancia sqrtFn st.coordenadas dc) prefs,
                    c.destino, some c.linea⟩ s.cola,
                Alcanzable eff o e.estacion ∧
                ((dictSet s.metricas c.destino
                  (metricasArista la c mcur)).lookup e.estacion).isSome := by
              intro e he
              rcases (mem_heapPush _ s.cola e).mp he with rfl | h'
              · exact ⟨hdest, hdestm⟩
              · exact ⟨(hinv e h').1, hmono _ (hinv e h').2⟩
            obtain ⟨s', h1, h2, h3, h4, h5⟩ := ih
              { s with
                cola := heapPush
                  ⟨calcular_prioridad (metricasArista la c mcur)
                      (calcular_distancia sqrtFn st.coordenadas dc) prefs,
                    c.destino, some c.linea⟩ s.cola,
                padres := dictSet s.padres c.destino (cur, cid),
                lineas_actuales := dictSet s.lineas_actuales c.destino c.linea,
                metricas := dictSet s.metricas c.destino
                  (metricasArista la c mcur) }
              hsubr hwfr (hmono cur hm) hinvN
            refine ⟨s', h1, h2, h3, ?_, ?_⟩
            · have hlen : (heapPush
                    ⟨calcular_prioridad (metricasArista la c mcur)
                        (calcular_distancia sqrtFn st.coordenadas dc) prefs,
                      c.destino, some c.linea⟩ s.cola).length =
                  s.cola.length + 1 := length_heapPush _ _
              simp only [List.length_cons]
              simp only [hlen] at h4
              omega
            · intro e he
              rcases h5 e he with h | h
              · rcases (mem_heapPush _ s.cola e).mp h with rfl | h'
                · refine Or.inr ?_
                  simp
                · exact Or.inl h'
              · refine Or.inr ?_
                simp only [List.map_cons, List.mem_cons]
                exact Or.inr h
          · rw [if_neg hacc]
            obtain ⟨s', h1, h2, h3, h4, h5⟩ := ih s hsubr hwfr hm hinv
            refine ⟨s', h1, h2, h3, by simp only [List.length_cons]; omega, ?_⟩
            intro e he
            rcases h5 e he with h | h
            · exact Or.inl h
            · exact Or.inr (by simp only [List.map_cons, List.mem_cons]; exact Or.inr h)

/-- The destinations of all connections, as a finite set of station ids. -/
def destinosFinset (eff : BaseConocimiento) : Finset String :=
  (eff.conexiones.map (fun p => p.2.destino)).toFinset

/-- The station ids currently on the priority queue. -/
def colaIdsFinset (s : AStarState) : Finset String :=
  (s.cola.map (fun e => e.estacion)).toFinset

/-- Termination measure for the A* loop: every iteration pops one entry,
and entries are only pushed — at most one per connection — in iterations
that settle a previously unsettled station. -/
def medida (eff : BaseConocimiento) (s : AStarState) : Nat :=
  s.cola.length + (eff.conexiones.length + 1) *
    ((destinosFinset eff ∪ colaIdsFinset s) \ s.visitados.toFinset).card

/-- On a well-formed effective base with no active path from the origin
to the destination, the A* loop runs to queue exhaustion within the
measure's fuel and returns the "no route" value. -/
lemma astarLoop_no_ruta (sqrtFn : ℚ → ℚ) (eff : BaseConocimiento)
    (o d : String) (dc : ℚ × ℚ) (prefs : List Preferencia)
    (hwf : ∀ p ∈ eff.conexiones, p.2.activa = true →
      (eff.estaciones.lookup p.2.destino).isSome)
    (hnd : ¬ Alcanzable eff o d) :
    ∀ (fuel : Nat) (s : AStarState),
      (∀ e ∈ s.cola, Alcanzable eff o e.estacion ∧
        (s.metricas.lookup e.estacion).isSome) →
      medida eff s < fuel →
      astarLoop sqrtFn eff o d dc prefs fuel s = .ok none := by
  intro fuel
  induction fuel with
  | zero =>
    intro s _ hlt
    exact absurd hlt (Nat.not_lt_zero _)
  | succ n ih =>
    intro s hinv hmed
    unfold astarLoop
    split
    · rfl
    · rename_i e rest hc
      have he := hinv e (by rw [hc]; exact List.mem_cons_self _ _)
      by_cases hv : e.estacion ∈ s.visitados
      · rw [if_pos hv]
        apply ih
        · intro x hx
          exact hinv x (by rw [hc]; exact List.mem_cons_of_mem _ hx)
        · have hsub : (destinosFinset eff ∪ colaIdsFinset { s with cola := rest }) \
                s.visitados.toFinset ⊆
              (destinosFinset eff ∪ colaIdsFinset s) \ s.visitados.toFinset := by
            apply Finset.sdiff_subset_sdiff _ (Finset.Subset.refl _)
            apply Finset.union_subset_union_right
            intro x hx
            simp only [colaIdsFinset, List.mem_toFinset, List.mem_map] at hx ⊢
            obtain ⟨y, hy, rfl⟩ := hx
            exact ⟨y, by rw [hc]; exact List.mem_cons_of_mem _ hy, rfl⟩
          have hcard := Finset.card_le_card hsub
          have hK2 : (eff.conexiones.length + 1) *
                ((destinosFinset eff ∪ colaIdsFinset { s with cola := rest }) \
                  s.visitados.toFinset).card ≤
              (eff.conexiones.length + 1) *
                ((destinosFinset eff ∪ colaIdsFinset s) \ s.visitados.toFinset).card :=
            Nat.mul_le_mul_left _ hcard
          have hlen : s.cola.length = rest.length + 1 := by rw [hc]; rfl
          simp only [medida] at hmed ⊢
          omega
      · rw [if_neg hv]
        by_cases hdd : e.estacion = d
        · exact absurd (hdd ▸ he.1) hnd
        · rw [if_neg hdd]
          obtain ⟨s2, hs2, hinv2, hvis2, hlen2, hids2⟩ :=
            explorar_ok sqrtFn eff o prefs dc e.estacion e.linea he.1
              eff.conexiones
              { s with cola := rest, visitados := e.estacion :: s.visitados }
              (fun p hp => hp) hwf he.2
              (fun x hx => hinv x (by rw [hc]; exact List.mem_cons_of_mem _ hx))
          simp only [hs2]
          apply ih s2 hinv2
          have hestin : e.estacion ∈
              (destinosFinset eff ∪ colaIdsFinset s) \ s.visitados.toFinset := by
            rw [Finset.mem_sdiff, Finset.mem_union]
            refine ⟨Or.inr ?_, by simpa using hv⟩
            simp only [colaIdsFinset, List.mem_toFinset, List.mem_map]
            exact ⟨e, by rw [hc]; exact List.mem_cons_self _ _, rfl⟩
          have hsub2 : (destinosFinset eff ∪ colaIdsFinset s2) \ s2.visitados.toFinset ⊆
              ((destinosFinset eff ∪ colaIdsFinset s) \ s.visitados.toFinset).erase
                e.estacion := by
            intro x hx
            rw [Finset.mem_sdiff, Finset.mem_union] at hx
            obtain ⟨hx1, hx2⟩ := hx
            rw [hvis2] at hx2
            simp only [List.toFinset_cons, Finset.mem_insert, not_or] at hx2
            rw [Finset.mem_erase, Finset.mem_sdiff, Finset.mem_union]
            refine ⟨hx2.1, ?_, hx2.2⟩
            rcases hx1 with hx1 | hx1
            · exact Or.inl hx1
            · simp only [colaIdsFinset, List.mem_toFinset, List.mem_map] at hx1
              obtain ⟨y, hy, rfl⟩ := hx1
              rcases hids2 y hy with hy' | hy'
              · right
                simp only [colaIdsFinset, List.mem_toFinset, List.mem_map]
                refine ⟨y, ?_, rfl⟩
                rw [hc]
                exact List.mem_cons_of_mem _ hy'
              · left
                simp only [destinosFinset, List.mem_toFinset]
                exact hy'
          have hcard2 := Finset.card_le_card hsub2
          rw [Finset.card_erase_of_mem hestin] at hcard2
          have hpos : 1 ≤
              ((destinosFinset eff ∪ colaIdsFinset s) \ s.visitados.toFinset).card :=
            Finset.card_pos.mpr ⟨_, hestin⟩
          obtain ⟨cc, hcc⟩ : ∃ cc,
              ((destinosFinset eff ∪ colaIdsFinset s) \ s.visitados.toFinset).card =
                cc + 1 :=
            ⟨((destinosFinset eff ∪ colaIdsFinset s) \ s.visitados.toFinset).card - 1,
              by omega⟩
          have hle : ((destinosFinset eff ∪ colaIdsFinset s2) \
              s2.visitados.toFinset).card ≤ cc := by omega
          have hmul1 : (eff.conexiones.length + 1) *
                ((destinosFinset eff ∪ colaIdsFinset s2) \ s2.visitados.toFinset).card ≤
              (eff.conexiones.length + 1) * cc :=
            Nat.mul_le_mul_left _ hle
          have hmul2 : (eff.conexiones.length + 1) *
                ((destinosFinset eff ∪ colaIdsFinset s) \ s.visitados.toFinset).card =
              (eff.conexiones.length + 1) * cc + (eff.conexiones.length + 1) := by
            rw [hcc, Nat.mul_succ]
          have hlen : s.cola.length = rest.length + 1 := by rw [hc]; rfl
          have hlen2' : s2.cola.length ≤ rest.length + eff.conexiones.length := by
            simpa using hlen2
          simp only [medida] at hmed ⊢
          omega

/-- C4 (amended): in a knowledge base where every active effective
connection leads to a registered station, any query between two existing
stations with no path of active effective connections between them
terminates with the queue exhausted and returns the NoRouteFound value
(`Except.ok none` — the source's `return None`), not a raised fault. -/
theorem c4_sin_ruta :
    ∀ (sqrtFn : ℚ → ℚ) (base : BaseConocimiento) (o d : String)
      (hora : FechaHora) (p : Option (List Preferencia)),
      (base.estaciones.lookup o).isSome →
      (base.estaciones.lookup d).isSome →
      (∀ q ∈ (aplicar_reglas base o d hora p).conexiones, q.2.activa = true →
        ((aplicar_reglas base o d hora p).estaciones.lookup q.2.destino).isSome) →
      ¬ Alcanzable (aplicar_reglas base o d hora p) o d →
      (calcular_ruta sqrtFn base o d hora p).2 = .ok none := by
  intro sqrtFn base o d hora p ho hd hwf hnr
  obtain ⟨sto, hsto⟩ := Option.isSome_iff_exists.mp
    (show ((aplicar_reglas base o d hora p).estaciones.lookup o).isSome by
      rw [aplicar_reglas_estaciones]; exact ho)
  obtain ⟨std, hstd⟩ := Option.isSome_iff_exists.mp
    (show ((aplicar_reglas base o d hora p).estaciones.lookup d).isSome by
      rw [aplicar_reglas_estaciones]; exact hd)
  simp only [calcular_ruta, buscar_ruta_astar, hsto, hstd]
  apply astarLoop_no_ruta sqrtFn (aplicar_reglas base o d hora p) o d
    std.coordenadas _ hwf hnr
  · intro e he
    rcases List.mem_singleton.mp he with rfl
    exact ⟨Relation.ReflTransGen.refl, by simp [List.lookup]⟩
  · have hDle : (destinosFinset (aplicar_reglas base o d hora p)).card ≤
        (aplicar_reglas base o d hora p).conexiones.length := by
      refine le_trans (List.toFinset_card_le _) ?_
      simp
    have hU : ((destinosFinset (aplicar_reglas base o d hora p) ∪
          colaIdsFinset ⟨[⟨0, o, none⟩], [], [], [], [(o, ⟨0, 0, 0, 0⟩)]⟩) \
          (([] : List String).toFinset)).card ≤
        (aplicar_reglas base o d hora p).conexiones.length + 1 := by
      simp only [List.toFinset_nil, Finset.sdiff_empty]
      refine le_trans (Finset.card_union_le _ _) ?_
      have hone : (colaIdsFinset ⟨[⟨0, o, none⟩], [], [], [], [(o, ⟨0, 0, 0, 0⟩)]⟩).card = 1 := by
        simp [colaIdsFinset]
      omega
    have hmulU : ((aplicar_reglas base o d hora p).conexiones.length + 1) *
          ((destinosFinset (aplicar_reglas base o d hora p) ∪
            colaIdsFinset ⟨[⟨0, o, none⟩], [], [], [], [(o, ⟨0, 0, 0, 0⟩)]⟩) \
            (([] : List String).toFinset)).card ≤
        ((aplicar_reglas base o d hora p).conexiones.length + 1) *
          ((aplicar_reglas base o d hora p).conexiones.length + 1) :=
      Nat.mul_le_mul_left _ hU
    have hms : ((aplicar_reglas base o d hora p).conexiones.length + 1) *
          ((aplicar_reglas base o d hora p).conexiones.length + 2) =
        ((aplicar_reglas base o d hora p).conexiones.length + 1) *
          ((aplicar_reglas base o d hora p).conexiones.length + 1) +
          ((aplicar_reglas base o d hora p).conexiones.length + 1) :=
      Nat.mul_succ _ _
    simp only [medida, bigFuel, List.length_singleton]
    omega

/-- C4 witness: two registered stations with no connections at all — the
query terminates with the NoRouteFound value. -/
theorem c4_sin_ruta_testigo :
    ((BaseConocimiento.mk [("A", estA), ("B", estB)] [] []).estaciones.lookup "A").isSome ∧
    ((BaseConocimiento.mk [("A", estA), ("B", estB)] [] []).estaciones.lookup "B").isSome ∧
    (¬ Alcanzable (aplicar_reglas (BaseConocimiento.mk [("A", estA), ("B", estB)] [] [])
      "A" "B" horaTest none) "A" "B") ∧
    (calcular_ruta sqrtCero (BaseConocimiento.mk [("A", estA), ("B", estB)] [] [])
      "A" "B" horaTest none).2 = .ok none := by
  have hnr : ¬ Alcanzable (aplicar_reglas
      (BaseConocimiento.mk [("A", estA), ("B", estB)] [] [])
      "A" "B" horaTest none) "A" "B" := by
    intro h
    rcases Relation.ReflTransGen.cases_head h with heq | ⟨c, hstep, _⟩
    · exact absurd heq (by decide)
    · obtain ⟨q, hq, _⟩ := hstep
      have hempty : (aplicar_reglas
          (BaseConocimiento.mk [("A", estA), ("B", estB)] [] [])
          "A" "B" horaTest none).conexiones = [] := rfl
      rw [hempty] at hq
      exact absurd hq (List.not_mem_nil q)
  refine ⟨by with_unfolding_all decide, by with_unfolding_all decide, hnr, ?_⟩
  exact c4_sin_ruta sqrtCero (BaseConocimiento.mk [("A", estA), ("B", estB)] [] [])
    "A" "B" horaTest none (by with_unfolding_all decide) (by with_unfolding_all decide)
    (by intro q hq; exact absurd hq (List.not_mem_nil q)) hnr

/-- C7: for every knowledge base and station id present in it, querying
from the station to itself returns the zero-length route: stations [a],
no connections, zero time, distance, transfers and cost. -/
theorem c7_ruta_trivial :
    ∀ (sqrtFn : ℚ → ℚ) (base : BaseConocimiento) (a : String)
      (hora : FechaHora) (p : Option (List Preferencia)),
      (base.estaciones.lookup a).isSome →
      (calcular_ruta sqrtFn base a a hora p).2 = .ok (some ⟨[a], [], 0, 0, 0, 0⟩) := by
  intro sqrtFn base a hora p h
  have h' : ((aplicar_reglas base a a hora p).estaciones.lookup a).isSome := by
    rw [aplicar_reglas_estaciones]
    exact h
  obtain ⟨st, hst⟩ := Option.isSome_iff_exists.mp h'
  obtain ⟨m, hm⟩ : ∃ m, bigFuel (aplicar_reglas base a a hora p) = m + 1 :=
    ⟨_ + 1, rfl⟩
  simp only [calcular_ruta, buscar_ruta_astar, hst, hm]
  simp [astarLoop, reconstruir_ruta, reconstruirLoop, List.lookup]

/-- C7 witness: the self-query at station "A" of the two-line scenario. -/
theorem c7_ruta_trivial_testigo :
    ((base3.estaciones.lookup "A").isSome) ∧
    (calcular_ruta sqrtCero base3 "A" "A" horaTest none).2 =
      .ok (some ⟨["A"], [], 0, 0, 0, 0⟩) :=
  ⟨by with_unfolding_all decide,
   c7_ruta_trivial sqrtCero base3 "A" horaTest none (by with_unfolding_all decide)⟩

end RutaTransportes
